/-
Verification of the cattle-feeder ingestion and ML pipeline
(repository `Capstone-D06`, variant `backend-fastapi-3`).

The Python source is shallowly embedded: dictionaries become structures,
floats become exact rationals (ℚ), datetimes become a `Timestamp` record
carrying the seconds value together with the derived `hour` / `weekday`
attributes that the source reads off a datetime, UUIDs become naturals,
database tables become lists of row structures, and the `asyncpg` calls
become explicit state passing with a boolean oracle for fallible round
trips.  `np.sin` / `np.cos` are abstracted as function parameters (they
are only ever applied to `2π·hour/24`, so they enter as functions of the
hour).  Randomness in the isolation forest is threaded explicitly as
choice streams.
-/
import Mathlib

namespace Capstone

/-- A point in time, as the source observes it: `sec` is the linear
seconds value used by subtraction (`total_seconds`) and comparisons,
while `hour` and `weekday` are the `.dt.hour` / `.dt.weekday` attributes
read by the feature extractor. -/
structure Timestamp where
  sec : ℚ
  hour : ℕ
  weekday : ℕ
  deriving DecidableEq

instance : Inhabited Timestamp := ⟨⟨0, 0, 0⟩⟩

/-- The fields of a session record that `engineer_features` in
`ml/tasks.py` actually reads (an `eat_session` row and the
`session_data_to_save` dict of `mqtt/client.py` both provide them). -/
structure SessionRecord where
  time_start : Timestamp
  time_end : Timestamp
  weight_start : ℚ
  weight_end : ℚ
  deriving DecidableEq

instance : Inhabited SessionRecord := ⟨⟨default, default, 0, 0⟩⟩

/-- Embeds `duration_sec` column: `(time_end - time_start).total_seconds()`. -/
def durationSec (s : SessionRecord) : ℚ := s.time_end.sec - s.time_start.sec

/-- Embeds `duration_min` column. -/
def durationMin (s : SessionRecord) : ℚ := durationSec s / 60

/-- Embeds `total_consumption` column: `weight_start - weight_end`. -/
def totalConsumption (s : SessionRecord) : ℚ := s.weight_start - s.weight_end

/-- Embeds `rate_per_min` column: `(total_consumption / duration_sec) * 60` on the
mask `duration_sec > 0`, and the initialised `0.0` elsewhere. -/
def ratePerMin (s : SessionRecord) : ℚ :=
  if durationSec s > 0 then totalConsumption s / durationSec s * 60 else 0

/-- The trailing mean that `x.shift(1).rolling(window=w, min_periods=1).mean()`
yields at row `i`: the mean of the previous `min i w` values
`x[max 0 (i-w) .. i-1]`, undefined (`NaN`, hence `none`) at row 0. -/
def shiftRollingMean (xs : List ℚ) (w i : ℕ) : Option ℚ :=
  if i = 0 then none
  else
    let lo := i - w
    let vals := (xs.drop lo).take (i - lo)
    some (vals.sum / (vals.length : ℚ))

/-- The deviation columns `(x_i - ma_i) / ma_i` after the source's cleanup
`replace([inf, -inf], nan)` + `fillna(0)`: an undefined mean (row 0) gives
`NaN ↦ 0`, a zero mean gives `±inf`/`NaN ↦ 0` (which rational division by
zero also returns), and otherwise the exact quotient. -/
def deviationFromMA (xs : List ℚ) (w i : ℕ) : ℚ :=
  match shiftRollingMean xs w i with
  | none => 0
  | some m => (xs.getD i 0 - m) / m

/-- Shallow embedding of `engineer_features` (`ml/tasks.py`, lines 18–76).
`hsin h` and `hcos h` stand for `np.sin(2π·h/24)` and `np.cos(2π·h/24)`
as functions of the start hour.  One row of 8 features per input session,
in the column order the source selects. -/
def engineer_features (hsin hcos : ℕ → ℚ) (window_size : ℕ)
    (sessions : List SessionRecord) : List (List ℚ) :=
  if sessions = [] then []
  else
    let cons := sessions.map totalConsumption
    let dmin := sessions.map durationMin
    (List.range sessions.length).map fun i =>
      let s := sessions.getD i default
      [durationMin s,
       totalConsumption s,
       ratePerMin s,
       hsin s.time_start.hour,
       hcos s.time_start.hour,
       (s.time_start.weekday : ℚ),
       deviationFromMA cons window_size i,
       deviationFromMA dmin window_size i]

/-- A node of an isolation tree (`ml/isolation_forest.py`, class `Node`):
either a leaf remembering the subset size, or an internal split. -/
inductive Node where
  | leaf (size : ℕ)
  | inner (split_feature : ℕ) (split_value : ℚ) (left right : Node)
  deriving DecidableEq

/-- Embeds `IsolationTree._get_path_length`: walk from `node` at `current_height`,
returning the depth of the leaf reached — no `c(n)` leaf-size adjustment. -/
def get_path_length (x : List ℚ) : Node → ℕ → ℕ
  | .leaf _, h => h
  | .inner f v l r, h =>
      if x.getD f 0 ≤ v then get_path_length x l (h + 1)
      else get_path_length x r (h + 1)

/-- Minimum of a column (`np.min` over a nonempty array; 0 for empty). -/
def listMin : List ℚ → ℚ
  | [] => 0
  | v :: vs => vs.foldl min v

/-- Maximum of a column (`np.max` over a nonempty array; 0 for empty). -/
def listMax : List ℚ → ℚ
  | [] => 0
  | v :: vs => vs.foldl max v

/-- Column `f` of the data matrix. -/
def colVals (X : List (List ℚ)) (f : ℕ) : List ℚ := X.map (fun x => x.getD f 0)

/-- Embeds `IsolationTree._build_tree` with the random draws made explicit:
`rng k` supplies the `k`-th pair of draws (the `random.randint` feature
pick, taken mod the feature count, and the `random.uniform` fraction `u`
with `split = min + u·(max−min)`).  The fuel argument is
`max_depth − current_height`, so fuel 0 is the depth cutoff.  Returns the
node and the next unused draw index. -/
def build_tree (rng : ℕ → ℕ × ℚ) : List (List ℚ) → ℕ → ℕ → Node × ℕ
  | X, k, 0 => (.leaf X.length, k)
  | X, k, fuel + 1 =>
    if X.length ≤ 1 then (.leaf X.length, k)
    else
      let nF := (X.headD []).length
      let f := (rng k).1 % nF
      let mn := listMin (colVals X f)
      let mx := listMax (colVals X f)
      if mn = mx then (.leaf X.length, k)
      else
        let split := mn + (rng k).2 * (mx - mn)
        let Xl := X.filter (fun x => x.getD f 0 ≤ split)
        let Xr := X.filter (fun x => split < x.getD f 0)
        if Xl = [] ∨ Xr = [] then (.leaf X.length, k)
        else
          let lr := build_tree rng Xl (k + 1) fuel
          let rr := build_tree rng Xr lr.2 fuel
          (.inner f split lr.1 rr.1, rr.2)

/-- State of `class IsolationForest` (constructor defaults
`n_estimators=100, subsample_size=256, contamination=0.05`, plus the
fields `fit` assigns). -/
structure IsolationForest where
  n_estimators : ℕ
  subsample_size : ℕ
  contamination : ℚ
  trees : List Node
  max_depth : ℕ
  threshold_ : ℚ
  deriving DecidableEq

/-- Embeds `IsolationForest.__init__`. -/
def IsolationForest.init (n_estimators subsample_size : ℕ) (contamination : ℚ) :
    IsolationForest :=
  ⟨n_estimators, subsample_size, contamination, [], 0, 0⟩

/-- Embeds `IsolationForest._get_avg_path_length`: sum of per-tree path lengths
divided by `n_estimators`. -/
def IsolationForest.avg_path_length (f : IsolationForest) (x : List ℚ) : ℚ :=
  (f.trees.map fun t => ((get_path_length x t 0 : ℕ) : ℚ)).sum / (f.n_estimators : ℚ)

/-- Embeds `IsolationForest.score_samples`: `-avg_path_length` per row. -/
def IsolationForest.score_samples (f : IsolationForest) (X : List (List ℚ)) : List ℚ :=
  X.map fun x => -(f.avg_path_length x)

/-- Embeds `IsolationForest.predict`: `np.where(scores > threshold_, -1, 1)`. -/
def IsolationForest.predict (f : IsolationForest) (X : List (List ℚ)) : List ℤ :=
  (f.score_samples X).map fun s => if s > f.threshold_ then (-1 : ℤ) else 1

/-- Insertion step for the ascending sort used by the percentile. -/
def insertSorted (a : ℚ) : List ℚ → List ℚ
  | [] => [a]
  | b :: bs => if a ≤ b then a :: b :: bs else b :: insertSorted a bs

/-- Ascending sort (the sort `np.percentile` performs internally). -/
def sortAsc (xs : List ℚ) : List ℚ := xs.foldr insertSorted []

/-- Embeds `np.percentile(xs, q)` with the default linear interpolation:
`rank = q/100·(n−1)`, `k = ⌊rank⌋`, result
`s[k] + (rank−k)·(s[k+1]−s[k])` on the ascending sort `s`. -/
def npPercentile (xs : List ℚ) (q : ℚ) : ℚ :=
  let s := sortAsc xs
  let n := s.length
  let rank := q / 100 * ((n : ℚ) - 1)
  let k := (Int.floor rank).toNat
  let d := rank - (k : ℚ)
  s.getD k 0 + d * (s.getD (k + 1) (s.getD k 0) - s.getD k 0)

/-- The `fit` training loop: one tree per `i < n_estimators`, each on the
subsample `(sub i)` of row indices (the `np.random.choice` draws), with
the split-draw stream threaded through in training order. -/
def fitTrees (rng : ℕ → ℕ × ℚ) (samples : List (List (List ℚ))) (md : ℕ) :
    List Node :=
  (samples.foldl
    (fun (acc : List Node × ℕ) Xs =>
      let tr := build_tree rng Xs acc.2 md
      (acc.1 ++ [tr.1], tr.2))
    ([], 0)).1

/-- Embeds `IsolationForest.fit`: cap the subsample size at the dataset size, set
`max_depth = ⌈log₂ subsample_size⌉`, grow `n_estimators` trees on the
drawn subsamples, then fix `threshold_` as the `contamination`-th
percentile (`np.percentile(scores, contamination*100)`) of the
training-set scores. -/
def IsolationForest.fit (f : IsolationForest) (X : List (List ℚ))
    (sub : ℕ → List ℕ) (rng : ℕ → ℕ × ℚ) : IsolationForest :=
  let n := X.length
  let ss := if f.subsample_size > n then n else f.subsample_size
  let md := Nat.clog 2 ss
  let samples := (List.range f.n_estimators).map
    fun i => (sub i).map fun j => X.getD j []
  let f1 : IsolationForest :=
    { f with subsample_size := ss, max_depth := md, trees := fitTrees rng samples md }
  { f1 with threshold_ := npPercentile (f1.score_samples X) (f.contamination * 100) }

/-- A row of the `eat_session` table. -/
structure EatSessionRow where
  session_id : ℕ
  device_id : String
  rfid_id : String
  cow_id : ℕ
  time_start : Timestamp
  time_end : Timestamp
  weight_start : ℚ
  weight_end : ℚ
  average_temp : ℚ
  deriving DecidableEq

instance : Inhabited EatSessionRow := ⟨⟨0, "", "", 0, default, default, 0, 0, 0⟩⟩

/-- The fields of a session row that the feature extractor reads. -/
def EatSessionRow.toRecord (r : EatSessionRow) : SessionRecord :=
  ⟨r.time_start, r.time_end, r.weight_start, r.weight_end⟩

/-- The `metrics` dict `train_model_for_cow` stores with a model. -/
structure Metrics where
  feature_count : ℕ
  session_count : ℕ
  anomaly_threshold : ℚ
  deriving DecidableEq

/-- A row of the `machine_learning_model` table.  `model_data` holds the
serialized artifact; since the source's `joblib` round-trip reproduces
the trained object, it is modelled as the `IsolationForest` value itself.
The training-window bounds are kept as their linear seconds values. -/
structure ModelRow where
  model_id : ℕ
  cow_id : Option ℕ
  model_version : String
  model_data : IsolationForest
  training_data_start : ℚ
  training_data_end : ℚ
  metrics : Metrics
  is_active : Bool
  deriving DecidableEq

/-- A row of the `anomaly` table.  `anomaly_score` is optional because the
realtime path can pass `None` through. -/
structure AnomalyRow where
  model_id : ℕ
  session_id : ℕ
  anomaly_score : Option ℚ
  is_anomaly : Bool
  deriving DecidableEq

/-- The persistent store as the ML/session claims see it, with counters
standing for the autogenerated primary keys. -/
structure MLDb where
  models : List ModelRow
  eat_sessions : List EatSessionRow
  anomalies : List AnomalyRow
  next_model_id : ℕ
  next_session_id : ℕ
  deriving DecidableEq

/-- Embeds `crud_ml.get_active_model_for_cow`: the per-cow active row if any,
else the active global (NULL-cow) row. -/
def get_active_model_for_cow (db : MLDb) (cow : ℕ) : Option ModelRow :=
  match db.models.find? (fun r => r.cow_id == some cow && r.is_active) with
  | some m => some m
  | none => db.models.find? (fun r => r.cow_id == none && r.is_active)

/-- Embeds `crud_ml.save_new_model`: within one transaction, set `is_active :=
false` on every active row of the same cow bucket (the `cow_id IS NULL`
branch when `cow_id` is `None`), then insert the new row with
`is_active := true`. -/
def save_new_model (db : MLDb) (cow_id : Option ℕ) (model_version : String)
    (model_data : IsolationForest) (metrics : Metrics)
    (start_date end_date : ℚ) : MLDb :=
  let deactivated := db.models.map fun r =>
    if r.cow_id == cow_id && r.is_active then { r with is_active := false } else r
  { db with
    models := deactivated ++
      [⟨db.next_model_id, cow_id, model_version, model_data,
        start_date, end_date, metrics, true⟩],
    next_model_id := db.next_model_id + 1 }

/-- One `INSERT INTO anomaly ... ON CONFLICT (model_id, session_id) DO
NOTHING`.  Modelled from the spec: the unique constraint on
`(model, session)` backing the conflict target is not in the repository's
DDL under `src/`; the spec's data model declares the anomaly table
"Unique on (model, session)", so a conflicting insert is a no-op. -/
def insertAnomaly (db : MLDb) (row : AnomalyRow) : MLDb :=
  if db.anomalies.any
      (fun a => a.model_id == row.model_id && a.session_id == row.session_id)
  then db
  else { db with anomalies := db.anomalies ++ [row] }

/-- Embeds `crud_ml.save_anomaly_scores`: `executemany` of the conflict-guarded
insert over the batch, in order. -/
def save_anomaly_scores (db : MLDb) (rows : List AnomalyRow) : MLDb :=
  rows.foldl insertAnomaly db

/-- Embeds `crud_session.create_eat_session`: discard the candidate when
`weight_end >= weight_start` (returning `None` and writing nothing);
otherwise insert and return the new `session_id` — unless the insert
round trip fails, in which case the `except` swallows the error and the
function returns `None` (`insertOk` is that outcome oracle). -/
def create_eat_session (db : MLDb) (device_id rfid_id : String) (cow_id : ℕ)
    (time_start time_end : Timestamp) (weight_start weight_end average_temp : ℚ)
    (insertOk : Bool) : Option ℕ × MLDb :=
  if weight_end ≥ weight_start then (none, db)
  else if insertOk then
    (some db.next_session_id,
     { db with
       eat_sessions := db.eat_sessions ++
         [⟨db.next_session_id, device_id, rfid_id, cow_id, time_start, time_end,
           weight_start, weight_end, average_temp⟩],
       next_session_id := db.next_session_id + 1 })
  else (none, db)

/-- Insertion step for `ORDER BY time_start`. -/
def insertByStart (a : EatSessionRow) : List EatSessionRow → List EatSessionRow
  | [] => [a]
  | b :: bs =>
      if a.time_start.sec ≤ b.time_start.sec then a :: b :: bs
      else b :: insertByStart a bs

/-- Embeds `ORDER BY time_start` ascending. -/
def sortByTimeStart (l : List EatSessionRow) : List EatSessionRow :=
  l.foldr insertByStart []

/-- Embeds `crud_ml.get_sessions_for_training`: the cow's sessions with
`time_start BETWEEN start AND end` (inclusive), ordered by start. -/
def get_sessions_for_training (db : MLDb) (cow : ℕ) (start_sec end_sec : ℚ) :
    List EatSessionRow :=
  sortByTimeStart (db.eat_sessions.filter
    (fun s => s.cow_id == cow && decide (start_sec ≤ s.time_start.sec)
      && decide (s.time_start.sec ≤ end_sec)))

/-- Embeds `crud_ml.get_unscored_sessions`: sessions with no row in `anomaly`
(left join null), ordered by start, `LIMIT 1000`. -/
def get_unscored_sessions (db : MLDb) : List EatSessionRow :=
  (sortByTimeStart (db.eat_sessions.filter
    (fun s => ¬ db.anomalies.any (fun a => a.session_id == s.session_id)))).take 1000

/-- Embeds `ml/tasks.py` `train_model_for_cow`: select the cow's sessions whose
start lies in the trailing 30 days (`end_date = now`,
`start_date = now − 30 days`); bail out writing nothing when fewer than
100 sessions; otherwise engineer features (window 10), fit an
`IsolationForest(contamination=0.05)` (other constructor defaults), and
save/activate the new model row.  `strftime` abstracts
`end_date.strftime("%Y%m%d")` in the version string; `sub`/`rng` are the
training randomness streams. -/
def train_model_for_cow (hsin hcos : ℕ → ℚ) (strftime : Timestamp → String)
    (db : MLDb) (cow : ℕ) (now : Timestamp)
    (sub : ℕ → List ℕ) (rng : ℕ → ℕ × ℚ) : MLDb :=
  let start_sec := now.sec - 30 * 86400
  let session_records := get_sessions_for_training db cow start_sec now.sec
  if session_records.length < 100 then db
  else
    let X_train := engineer_features hsin hcos 10
      (session_records.map EatSessionRow.toRecord)
    if X_train = [] then db
    else
      let model := (IsolationForest.init 100 256 (1 / 20)).fit X_train sub rng
      let model_version := "iforest-v2-ma-" ++ strftime now
      let metrics : Metrics :=
        ⟨(X_train.headD []).length, X_train.length, model.threshold_⟩
      save_new_model db (some cow) model_version model metrics start_sec now.sec

/-- The call `crud_ml.get_recent_sessions_before(...)` made by
`ml/tasks.py` line 200.  `services/crud_ml.py` no longer defines that
function — its line 24 reads `# --- FUNGSI get_recent_sessions_before
SUDAH DIHILANGKAN ---` ("the function has been removed") — so Python
attribute lookup on the module raises `AttributeError` at the call
site. -/
def get_recent_sessions_before (_db : MLDb) (_cow : ℕ) (_before : Timestamp)
    (_limitN : ℕ) : Except String (List EatSessionRow) :=
  .error "AttributeError"

/-- The body of the per-session `try` block of `periodic_prediction_task`
(`ml/tasks.py`, lines 174–231), folded over the unscored sessions with
`acc` as `results_to_save`: look up the active model (cow, then global
fallback; the `loaded_models` cache is semantically the identity against
a fixed store, so it is not materialised); then the call into the removed
`get_recent_sessions_before` raises, the per-session `except` catches,
and the session contributes nothing; the dead success path would append
the score of the last feature row. -/
def prediction_step (hsin hcos : ℕ → ℚ) (db : MLDb)
    (acc : List AnomalyRow) (s : EatSessionRow) : List AnomalyRow :=
  match get_active_model_for_cow db s.cow_id with
  | none => acc
  | some m =>
    match get_recent_sessions_before db s.cow_id s.time_start 9 with
    | .error _ => acc
    | .ok history =>
      let allSessions := history.map EatSessionRow.toRecord ++ [s.toRecord]
      let feats := engineer_features hsin hcos 10 allSessions
      if feats = [] then acc
      else
        let x := feats.getD (feats.length - 1) []
        let score := (m.model_data.score_samples [x]).getD 0 0
        let pred := (m.model_data.predict [x]).getD 0 1
        acc ++ [⟨m.model_id, s.session_id, some score, pred == -1⟩]

/-- One pass of `periodic_prediction_task` (`ml/tasks.py`, lines 153–237)
without the outer sleep loop: fetch the unscored sessions, fold the
per-session step over them to build `results_to_save`, and batch-save the
results when any exist. -/
def periodic_prediction_cycle (hsin hcos : ℕ → ℚ) (db : MLDb) : MLDb :=
  let unscored := get_unscored_sessions db
  if unscored = [] then db
  else
    let results := unscored.foldl (prediction_step hsin hcos db) []
    if results = [] then db else save_anomaly_scores db results

/-- An event broadcast on a cow's channel of the streaming broker
(`streaming_broker.broadcast`), with the payload fields the dispatcher
fills in. -/
inductive BrokerEvent where
  | sensor_update (device_id : String) (timestamp : Timestamp)
      (weight : Option ℚ) (temperature_c : Option ℚ)
  | session_end (device_id : String) (timestamp : Timestamp)
      (average_temp : ℚ) (anomaly : Bool) (score : Option ℚ)
  | session_timeout (device_id : String) (timestamp : Timestamp)
  deriving DecidableEq

/-- The per-device dict entry of `ACTIVE_SESSIONS` (`mqtt/client.py`). -/
structure SessionState where
  rfid_id : String
  cow_id : ℕ
  time_start : Timestamp
  weight_start : ℚ
  last_weight : ℚ
  last_seen : Timestamp
  last_consumption_time : Timestamp
  temp_sum : ℚ
  temp_count : ℕ
  deriving DecidableEq

/-- The mutable state the finalization path touches: the live session
dict (association list keyed by device id), the store, and the log of
events broadcast on cow channels. -/
structure PipelineState where
  active_sessions : List (String × SessionState)
  db : MLDb
  events : List (ℕ × BrokerEvent)
  deriving DecidableEq

/-- Embeds `realtime_predict_and_save` (`mqtt/client.py`, lines 77–108): despite
its name it only computes; it looks up the active model (per-cow, then
global fallback), engineers features for the single candidate session,
and returns `(score, prediction == -1)`; `(None, False)` when no model is
active (model deserialization is the stored value, so the `joblib.load`
failure branch is unreachable here). -/
def realtime_predict_and_save (hsin hcos : ℕ → ℚ) (db : MLDb)
    (session_data : SessionRecord) (cow_id : ℕ) : Option ℚ × Bool :=
  match get_active_model_for_cow db cow_id with
  | none => (none, false)
  | some m =>
    let feats := engineer_features hsin hcos 10 [session_data]
    if feats = [] then (none, false)
    else
      let x := feats.getD 0 []
      (some ((m.model_data.score_samples [x]).getD 0 0),
       (m.model_data.predict [x]).getD 0 1 == -1)

/-- Embeds `finalize_session` (`mqtt/client.py`, lines 110–169).  First
`ACTIVE_SESSIONS.pop(device_id, None)` removes the live entry (no-op and
early return when absent); then mean temperature, realtime prediction,
model-id lookup, `create_eat_session` (which discards the candidate when
the weight did not strictly decrease, and whose insert failure is the
`insertOk` oracle), the conditional anomaly write (guarded by both a
returned `session_id` and a found `model_id`; `is_anomaly is not None` is
always true for a bool), and the unconditional `session_end`
broadcast. -/
def finalize_session (hsin hcos : ℕ → ℚ) (st : PipelineState)
    (device_id : String) (last_weight : ℚ) (last_timestamp : Timestamp)
    (insertOk : Bool) : PipelineState :=
  match st.active_sessions.find? (fun p => p.1 == device_id) with
  | none => st
  | some entry =>
    let state := entry.2
    let rest := st.active_sessions.eraseP (fun p => p.1 == device_id)
    let avg_temp :=
      if state.temp_count > 0 then state.temp_sum / (state.temp_count : ℚ) else 0
    let session_data : SessionRecord :=
      ⟨state.time_start, last_timestamp, state.weight_start, last_weight⟩
    let pr := realtime_predict_and_save hsin hcos st.db session_data state.cow_id
    let model_id := (get_active_model_for_cow st.db state.cow_id).map (·.model_id)
    let ins := create_eat_session st.db device_id state.rfid_id state.cow_id
      state.time_start last_timestamp state.weight_start last_weight avg_temp insertOk
    let db2 :=
      match ins.1, model_id with
      | some sid, some mid => save_anomaly_scores ins.2 [⟨mid, sid, pr.1, pr.2⟩]
      | _, _ => ins.2
    { active_sessions := rest,
      db := db2,
      events := st.events ++
        [(state.cow_id,
          .session_end device_id last_timestamp avg_temp pr.2 pr.1)] }

/-- One record of `MQTT_DATA_BUFFER` (the dict built by
`process_mqtt_message`; the optional fields come from `payload.get`). -/
structure RawSample where
  timestamp : Timestamp
  device_id : String
  rfid_id : Option String
  weight : Option ℚ
  temperature_c : Option ℚ
  ip : Option String
  deriving DecidableEq

/-- Python-dict upsert for `device_updates[msg['device_id']] = ...`:
update in place when the key exists, else append (insertion order). -/
def dictUpsert (l : List (String × (Option String × Timestamp)))
    (k : String) (v : Option String × Timestamp) :
    List (String × (Option String × Timestamp)) :=
  if (l.find? (fun p => p.1 == k)).isSome then
    l.map fun p => if p.1 == k then (k, v) else p
  else l ++ [(k, v)]

/-- Outcome of one `flush_buffer_to_db` call: the value of
`MQTT_DATA_BUFFER` afterwards, and the three batches written on
success. -/
structure FlushResult where
  buffer' : List RawSample
  device_upserts : List (String × (Option String × Timestamp))
  rfid_upserts : List String
  sensor_inserts : List RawSample
  deriving DecidableEq

/-- Embeds `flush_buffer_to_db` (`mqtt/client.py`, lines 33–75).  The function
takes the whole buffer as the batch and rebinds `MQTT_DATA_BUFFER = []`;
`arrivals` are the records `process_mqtt_message` appends to that fresh
list while the store round trip is awaited.  On success the batch is
written (device upserts first, then tag upserts, then the raw inserts)
and the buffer is left holding only the arrivals; on failure (`fail`
oracle; the `except` around the round trip) the code runs
`MQTT_DATA_BUFFER.extend(current_batch_dicts)`, i.e. the failed batch is
appended after the arrivals.  An empty buffer returns at once. -/
def flush_buffer_to_db (buf arrivals : List RawSample) (fail : Bool) :
    FlushResult :=
  if buf = [] then ⟨arrivals, [], [], []⟩
  else
    let device_updates := buf.foldl
      (fun acc msg => dictUpsert acc msg.device_id (msg.ip, msg.timestamp)) []
    let rfids := buf.foldl
      (fun (acc : List String) msg =>
        match msg.rfid_id with
        | some r => if r == "" || acc.contains r then acc else acc ++ [r]
        | none => acc) []
    if fail then ⟨arrivals ++ buf, [], [], []⟩
    else ⟨arrivals, device_updates, rfids, buf⟩

/-- One frame of an SSE response: the opening connected frame a generator
may yield, or a `data:` frame wrapping a queued broker message. -/
inductive SseFrame where
  | connected (channel : String)
  | data (msg : String)
  deriving DecidableEq

/-- Whether a frame is the initial connected frame. -/
def SseFrame.isConnected : SseFrame → Bool
  | .connected _ => true
  | .data _ => false

/-- Embeds `_ml_stream_generator` (`api/endpoints/streaming.py`, lines 23–39):
yields the connected frame for its channel, then one data frame per
queued message until the client disconnects (`msgs` is what the queue
delivered before that). -/
def ml_stream_frames (channel_key : String) (msgs : List String) : List SseFrame :=
  .connected channel_key :: msgs.map .data

/-- Embeds `_cow_stream_generator` (`api/endpoints/streaming.py`, lines 60–83):
the loop yields one data frame per queued message until disconnect —
there is no opening connected frame in this generator. -/
def cow_stream_frames (msgs : List String) : List SseFrame :=
  msgs.map .data

/-- Embeds `_farmer_stream_generator` (`api/endpoints/streaming.py`, lines
124–149): connected frame for `farmer_alerts`, then data frames. -/
def farmer_stream_frames (msgs : List String) : List SseFrame :=
  .connected "farmer_alerts" :: msgs.map .data

/-- Number of active model rows in one cow bucket (the quantity the
at-most-one-active invariant bounds). -/
def activeCount (db : MLDb) (c : Option ℕ) : ℕ :=
  db.models.countP (fun r => r.cow_id == c && r.is_active)

/-- A concrete session: 10 minutes starting at hour 8, weekday 2, eating
from 7 down to 5. -/
def s0 : SessionRecord := ⟨⟨0, 8, 2⟩, ⟨600, 8, 2⟩, 7, 5⟩

/-- A concrete raw sample from device `d1`. -/
def sampleA : RawSample := ⟨⟨0, 0, 0⟩, "d1", none, none, none, none⟩

/-- A concrete raw sample from device `d2`. -/
def sampleB : RawSample := ⟨⟨1, 0, 0⟩, "d2", none, none, none, none⟩

/-- The empty store. -/
def emptyDb : MLDb := ⟨[], [], [], 0, 0⟩

/-- A live session whose weight has not decreased: start weight 5 and
last weight 5. -/
def sess0 : SessionState :=
  ⟨"tag1", 1, ⟨0, 8, 2⟩, 5, 5, ⟨600, 8, 2⟩, ⟨600, 8, 2⟩, 0, 0⟩

/-- Pipeline state with the one live session on device `dev1`, an empty
store and no broadcasts yet. -/
def st0 : PipelineState := ⟨[("dev1", sess0)], emptyDb, []⟩

/-- An untrained forest with the constructor defaults used by training
(`contamination = 0.05`). -/
def fEmpty : IsolationForest := IsolationForest.init 100 256 (1 / 20)

/-- A stored session row for cow 1 (weights 7 → 5). -/
def row0 : EatSessionRow :=
  ⟨0, "dev1", "tag1", 1, ⟨0, 8, 2⟩, ⟨600, 8, 2⟩, 7, 5, 20⟩

/-- A store holding one session for cow 1, no anomaly rows, and an active
model for cow 1 — the situation in which the scoring backfill is supposed
to produce a score row. -/
def exampleDb : MLDb :=
  ⟨[⟨1, some 1, "v", fEmpty, 0, 0, ⟨8, 1, 0⟩, true⟩], [row0], [], 2, 1⟩

/-- A store with exactly 10 sessions for cow 1, all inside the trailing
30-day window ending at second 2592000. -/
def db10 : MLDb :=
  ⟨[], (List.range 10).map
      (fun i => ⟨i, "d", "t", 1, ⟨(i : ℚ), 0, 0⟩, ⟨((i + 1 : ℕ) : ℚ), 0, 0⟩, 7, 5, 20⟩),
    [], 0, 10⟩

theorem engineer_features_length (hsin hcos : ℕ → ℚ) (w : ℕ)
    (sessions : List SessionRecord) :
    (engineer_features hsin hcos w sessions).length = sessions.length := by
  unfold engineer_features
  by_cases h : sessions = []
  · subst h; simp
  · rw [if_neg h]; simp

/-- C4 (amended): the feature extractor is a deterministic function; on a
single session record it yields one vector of exactly 8 features in the
order duration minutes, total consumption, rate per minute (zero when
duration-seconds ≤ 0), hour-sine, hour-cosine, day-of-week index, and the
two moving-average deviation features (0 for a lone session, their NaN
cleaned up to 0); every row it ever produces has length 8, and mean
temperature is not among the features. -/
theorem c4_feature_extractor (hsin hcos : ℕ → ℚ) (s : SessionRecord)
    (sessions : List SessionRecord) :
    engineer_features hsin hcos 10 [s] =
      [[durationMin s, totalConsumption s, ratePerMin s,
        hsin s.time_start.hour, hcos s.time_start.hour,
        (s.time_start.weekday : ℚ), 0, 0]] ∧
    (engineer_features hsin hcos 10 sessions).length = sessions.length ∧
    (engineer_features hsin hcos 10 sessions).all (fun r => r.length == 8) = true := by
  refine ⟨rfl, engineer_features_length hsin hcos 10 sessions, ?_⟩
  unfold engineer_features
  by_cases h : sessions = []
  · subst h; rfl
  · rw [if_neg h]
    simp only [List.all_eq_true, List.mem_map, List.mem_range]
    rintro r ⟨i, _, rfl⟩
    rfl

/-- C4 counterexample: on the concrete session `s0` the extractor's
output row has 8 entries, not the 7 the claim states. -/
theorem c4_counterexample :
    ((engineer_features (fun _ => 0) (fun _ => 0) 10 [s0]).getD 0 []).length = 8 ∧
    ¬ ((engineer_features (fun _ => 0) (fun _ => 0) 10 [s0]).getD 0 []).length = 7 := by
  exact ⟨rfl, by decide⟩

/-- C9 (amended): the ML-status (system channel) and farmer-alerts SSE
generators emit the connected frame as their first frame; the
animal-channel generator emits only `data:` frames wrapping
broker-delivered messages and never a connected frame. -/
theorem c9_connected_frames (channel : String) (msgs : List String) :
    (ml_stream_frames channel msgs).head? = some (.connected channel) ∧
    (farmer_stream_frames msgs).head? = some (.connected "farmer_alerts") ∧
    cow_stream_frames msgs = msgs.map SseFrame.data ∧
    (cow_stream_frames msgs).all (fun fr => !fr.isConnected) = true := by
  refine ⟨rfl, rfl, rfl, ?_⟩
  simp only [cow_stream_frames, List.all_eq_true, List.mem_map]
  rintro fr ⟨m, _, rfl⟩
  rfl

/-- C9 counterexample: an animal-channel response whose queue delivered
one broker message has a first frame, and that frame is not the connected
frame the claim requires. -/
theorem c9_counterexample :
    ((cow_stream_frames ["x"]).head?.map SseFrame.isConnected) = some false := rfl

/-- C3 (amended): when a flush's store round trip fails, the entire
failed batch is returned to the buffer at the tail — appended after the
samples enqueued in the meantime — and no sample is dropped: the
resulting buffer is a permutation of the old batch plus the arrivals. -/
theorem c3_flush_failure_requeues (buf arrivals : List RawSample)
    (h : buf ≠ []) :
    (flush_buffer_to_db buf arrivals true).buffer' = arrivals ++ buf ∧
    ((flush_buffer_to_db buf arrivals true).buffer').Perm (buf ++ arrivals) := by
  unfold flush_buffer_to_db
  rw [if_neg h]
  exact ⟨rfl, List.perm_append_comm⟩

theorem c3_witness :
    (flush_buffer_to_db [sampleA] [sampleB] true).buffer' = [sampleB] ++ [sampleA] ∧
    ((flush_buffer_to_db [sampleA] [sampleB] true).buffer').Perm
      ([sampleA] ++ [sampleB]) :=
  c3_flush_failure_requeues [sampleA] [sampleB] (by decide)

/-- C3 counterexample: with `[sampleA]` buffered and `[sampleB]` arriving
during the failing round trip, the buffer afterwards is
`[sampleB, sampleA]` — the failed batch sits behind the newer sample, not
at the head as the claim states. -/
theorem c3_counterexample :
    (flush_buffer_to_db [sampleA] [sampleB] true).buffer' = [sampleB, sampleA] ∧
    ¬ (flush_buffer_to_db [sampleA] [sampleB] true).buffer' = [sampleA, sampleB] := by
  exact ⟨rfl, by decide⟩

/-- C8: inserting an anomaly score for a `(model, session)` pair not yet
present and then writing a second score for the same pair leaves exactly
the one first row: the second write is a no-op under the
conflict policy, and the stored score and label are unchanged. -/
theorem c8_anomaly_write_idempotent (db : MLDb) (m s : ℕ) (sc1 sc2 : Option ℚ)
    (l1 l2 : Bool)
    (h : db.anomalies.any (fun a => a.model_id == m && a.session_id == s) = false) :
    (save_anomaly_scores (save_anomaly_scores db [⟨m, s, sc1, l1⟩])
        [⟨m, s, sc2, l2⟩]).anomalies = db.anomalies ++ [⟨m, s, sc1, l1⟩] := by
  simp [save_anomaly_scores, insertAnomaly, h, List.any_append]

theorem c8_witness :
    (save_anomaly_scores (save_anomaly_scores emptyDb [⟨0, 0, some 1, true⟩])
        [⟨0, 0, some 2, false⟩]).anomalies =
      emptyDb.anomalies ++ [⟨0, 0, some 1, true⟩] :=
  c8_anomaly_write_idempotent emptyDb 0 0 (some 1) (some 2) true false (by decide)

theorem prediction_step_skips (hsin hcos : ℕ → ℚ) (db : MLDb)
    (acc : List AnomalyRow) (s : EatSessionRow) :
    prediction_step hsin hcos db acc s = acc := by
  unfold prediction_step
  cases get_active_model_for_cow db s.cow_id <;> rfl

theorem prediction_cycle_no_writes (hsin hcos : ℕ → ℚ) (db : MLDb) :
    periodic_prediction_cycle hsin hcos db = db := by
  unfold periodic_prediction_cycle
  by_cases h : get_unscored_sessions db = []
  · rw [if_pos h]
  · rw [if_neg h]
    have hfold : ∀ (l : List EatSessionRow) (acc : List AnomalyRow),
        l.foldl (prediction_step hsin hcos db) acc = acc := by
      intro l
      induction l with
      | nil => intro acc; rfl
      | cons a t ih =>
        intro acc
        rw [List.foldl_cons, prediction_step_skips]
        exact ih acc
    rw [hfold]
    rfl

/-- C2 (code bug): `exampleDb` has exactly one stored session absent from
the anomaly table and an active model for its cow, yet a scoring backfill
cycle inserts nothing — it leaves the store untouched — because the
per-session body calls `crud_ml.get_recent_sessions_before`, which
`services/crud_ml.py` no longer defines, and the resulting
`AttributeError` makes every session fall into the per-session
`except`. -/
theorem c2_scoring_cycle_inserts_nothing :
    (get_unscored_sessions exampleDb).length = 1 ∧
    (get_active_model_for_cow exampleDb 1).isSome = true ∧
    periodic_prediction_cycle (fun _ => 0) (fun _ => 0) exampleDb = exampleDb :=
  ⟨by decide, by decide, prediction_cycle_no_writes (fun _ => 0) (fun _ => 0) exampleDb⟩

/-- C1 (amended): finalizing an active session whose end weight is not
strictly below the start weight discards the candidate — no session row
is inserted and no anomaly row is written — but a `session_end` event is
nevertheless broadcast on the animal's channel. -/
theorem c1_discard_still_broadcasts (hsin hcos : ℕ → ℚ) (st : PipelineState)
    (device : String) (lw : ℚ) (ts : Timestamp) (ok : Bool)
    (entry : String × SessionState)
    (hfind : st.active_sessions.find? (fun p => p.1 == device) = some entry)
    (hw : entry.2.weight_start ≤ lw) :
    (finalize_session hsin hcos st device lw ts ok).db.eat_sessions =
      st.db.eat_sessions ∧
    (finalize_session hsin hcos st device lw ts ok).db.anomalies =
      st.db.anomalies ∧
    ∃ temp anom sc,
      (finalize_session hsin hcos st device lw ts ok).events =
        st.events ++ [(entry.2.cow_id, .session_end device ts temp anom sc)] := by
  have hge : lw ≥ entry.2.weight_start := hw
  simp only [finalize_session, hfind, create_eat_session, if_pos hge]
  exact ⟨trivial, trivial, _, _, _, rfl⟩

theorem c1_witness :
    (finalize_session (fun _ => 0) (fun _ => 0) st0 "dev1" 5 ⟨600, 8, 2⟩ true).db.eat_sessions =
      st0.db.eat_sessions ∧
    (finalize_session (fun _ => 0) (fun _ => 0) st0 "dev1" 5 ⟨600, 8, 2⟩ true).db.anomalies =
      st0.db.anomalies ∧
    ∃ temp anom sc,
      (finalize_session (fun _ => 0) (fun _ => 0) st0 "dev1" 5 ⟨600, 8, 2⟩ true).events =
        st0.events ++ [(sess0.cow_id, .session_end "dev1" ⟨600, 8, 2⟩ temp anom sc)] :=
  c1_discard_still_broadcasts (fun _ => 0) (fun _ => 0) st0 "dev1" 5 ⟨600, 8, 2⟩ true
    ("dev1", sess0) (by decide) (le_refl 5)

/-- C1 counterexample: at `st0` the session ends with weight 5 = start
weight 5, so the candidate is discarded (no session row, no anomaly row),
yet — contrary to the claim — a `session_end` event is broadcast on cow
1's channel. -/
theorem c1_counterexample :
    sess0.weight_start ≤ 5 ∧
    (finalize_session (fun _ => 0) (fun _ => 0) st0 "dev1" 5 ⟨600, 8, 2⟩ true).db.eat_sessions = [] ∧
    (finalize_session (fun _ => 0) (fun _ => 0) st0 "dev1" 5 ⟨600, 8, 2⟩ true).db.anomalies = [] ∧
    (finalize_session (fun _ => 0) (fun _ => 0) st0 "dev1" 5 ⟨600, 8, 2⟩ true).events =
      [(1, .session_end "dev1" ⟨600, 8, 2⟩ 0 false none)] :=
  ⟨le_refl 5, rfl, rfl, rfl⟩

theorem find?_eraseP_eq_none (l : List (String × SessionState)) (d : String)
    (h : (l.map Prod.fst).Nodup) :
    (l.eraseP (fun p => p.1 == d)).find? (fun p => p.1 == d) = none := by
  induction l with
  | nil => rfl
  | cons a t ih =>
    rw [List.map_cons, List.nodup_cons] at h
    by_cases ha : (a.1 == d) = true
    · rw [@List.eraseP_cons_of_pos _ a t (fun p => p.1 == d) ha, List.find?_eq_none]
      intro x hx
      have had : a.1 = d := by simpa using ha
      have hxd : x.1 ≠ d := by
        intro he
        exact h.1 (had ▸ he ▸ List.mem_map_of_mem Prod.fst hx)
      simpa using hxd
    · rw [@List.eraseP_cons_of_neg _ a t (fun p => p.1 == d) ha,
        @List.find?_cons_of_neg _ (fun p => p.1 == d) a
          (List.eraseP (fun p => p.1 == d) t) ha]
      exact ih h.2

/-- C10: `finalize_session` pops the device's entry from the live session
map before any store interaction, so in every outcome — whether the
candidate is discarded, the insert succeeds, or the insert round trip
fails (`ok = false`) — the live map afterwards is exactly the old map
with the device's entry erased, and (keys being unique, as in a dict) the
device has no active session and the removed entry is never
re-enqueued. -/
theorem c10_finalize_clears_live_entry (hsin hcos : ℕ → ℚ) (st : PipelineState)
    (device : String) (lw : ℚ) (ts : Timestamp) (ok : Bool) :
    (finalize_session hsin hcos st device lw ts ok).active_sessions =
      st.active_sessions.eraseP (fun p => p.1 == device) ∧
    ((st.active_sessions.map Prod.fst).Nodup →
      (finalize_session hsin hcos st device lw ts ok).active_sessions.find?
        (fun p => p.1 == device) = none) := by
  have h1 : (finalize_session hsin hcos st device lw ts ok).active_sessions =
      st.active_sessions.eraseP (fun p => p.1 == device) := by
    rcases hfind : st.active_sessions.find? (fun p => p.1 == device) with _ | entry
    · have herase : st.active_sessions.eraseP (fun p => p.1 == device) =
          st.active_sessions := by
        apply List.eraseP_of_forall_not
        intro a ha
        exact List.find?_eq_none.mp hfind a ha
      simp only [finalize_session, hfind, herase]
    · simp only [finalize_session, hfind]
  refine ⟨h1, fun hn => ?_⟩
  rw [h1]
  exact find?_eraseP_eq_none _ _ hn

theorem c10_witness :
    (finalize_session (fun _ => 0) (fun _ => 0) st0 "dev1" 5 ⟨600, 8, 2⟩ false).active_sessions =
      st0.active_sessions.eraseP (fun p => p.1 == "dev1") ∧
    (finalize_session (fun _ => 0) (fun _ => 0) st0 "dev1" 5 ⟨600, 8, 2⟩ false).active_sessions.find?
      (fun p => p.1 == "dev1") = none :=
  ⟨(c10_finalize_clears_live_entry (fun _ => 0) (fun _ => 0) st0 "dev1" 5 ⟨600, 8, 2⟩ false).1,
   (c10_finalize_clears_live_entry (fun _ => 0) (fun _ => 0) st0 "dev1" 5 ⟨600, 8, 2⟩ false).2 (by decide)⟩

theorem engineer_features_ne_nil (hsin hcos : ℕ → ℚ) (w : ℕ)
    (sessions : List SessionRecord) (h : sessions ≠ []) :
    engineer_features hsin hcos w sessions ≠ [] := by
  intro he
  apply h
  have hl := engineer_features_length hsin hcos w sessions
  rw [he] at hl
  exact List.length_eq_zero.mp hl.symm

/-- C5 (amended): the per-animal training body selects the animal's
sessions from the trailing 30 days and writes a newly activated model row
iff at least 100 such sessions exist; with fewer than 100 sessions the
animal is skipped and the store is untouched. -/
theorem c5_training_threshold (hsin hcos : ℕ → ℚ) (strftime : Timestamp → String)
    (db : MLDb) (cow : ℕ) (now : Timestamp) (sub : ℕ → List ℕ) (rng : ℕ → ℕ × ℚ) :
    ((get_sessions_for_training db cow (now.sec - 30 * 86400) now.sec).length < 100 →
      train_model_for_cow hsin hcos strftime db cow now sub rng = db) ∧
    (100 ≤ (get_sessions_for_training db cow (now.sec - 30 * 86400) now.sec).length →
      (train_model_for_cow hsin hcos strftime db cow now sub rng).models.length =
        db.models.length + 1 ∧
      ((train_model_for_cow hsin hcos strftime db cow now sub rng).models.getLast?.map
          (fun r => (r.is_active, r.cow_id))) = some (true, some cow)) := by
  constructor
  · intro h
    unfold train_model_for_cow
    rw [if_pos h]
  · intro h
    have hne : get_sessions_for_training db cow (now.sec - 30 * 86400) now.sec ≠ [] := by
      intro he
      rw [he] at h
      simp at h
    have hXne : engineer_features hsin hcos 10
        ((get_sessions_for_training db cow (now.sec - 30 * 86400) now.sec).map
          EatSessionRow.toRecord) ≠ [] := by
      apply engineer_features_ne_nil
      simp [hne]
    unfold train_model_for_cow
    rw [if_neg (by omega), if_neg hXne]
    unfold save_new_model
    refine ⟨by simp, ?_⟩
    rw [List.getLast?_concat]
    rfl

theorem c5_witness :
    train_model_for_cow (fun _ => 0) (fun _ => 0) (fun _ => "x") emptyDb 1 ⟨0, 0, 0⟩
      (fun _ => []) (fun _ => (0, 0)) = emptyDb :=
  (c5_training_threshold (fun _ => 0) (fun _ => 0) (fun _ => "x") emptyDb 1 ⟨0, 0, 0⟩
    (fun _ => []) (fun _ => (0, 0))).1 (by decide)

/-- C5 counterexample: `db10` holds exactly 10 sessions for cow 1 inside
the trailing 30-day window ending at second 2592000 (whose lower bound
`2592000 − 30·86400` is second 0) — at least 10, as the claim requires
for training — yet the training body writes no model row. -/
theorem c5_counterexample :
    (get_sessions_for_training db10 1 0 2592000).length = 10 ∧
    (0 : ℚ) = 2592000 - 30 * 86400 ∧
    (train_model_for_cow (fun _ => 0) (fun _ => 0) (fun _ => "x") db10 1 ⟨2592000, 0, 0⟩
      (fun _ => []) (fun _ => (0, 0))).models = [] := by
  refine ⟨by decide, by norm_num, ?_⟩
  unfold train_model_for_cow
  have hb : (Timestamp.mk 2592000 0 0).sec - 30 * 86400 = (0 : ℚ) := by norm_num
  rw [hb, if_pos (by decide)]
  rfl

theorem deact_pred_self (r : ModelRow) (c : Option ℕ) :
    (((if r.cow_id == c && r.is_active then { r with is_active := false } else r).cow_id
        == c) &&
      (if r.cow_id == c && r.is_active then { r with is_active := false } else r).is_active)
      = false := by
  by_cases hb : (r.cow_id == c && r.is_active) = true
  · rw [if_pos hb]
    exact Bool.and_false _
  · rw [if_neg hb]
    simpa using hb

theorem deact_pred_other (r : ModelRow) (c c' : Option ℕ) (h : ¬ c' = c) :
    (((if r.cow_id == c && r.is_active then { r with is_active := false } else r).cow_id
        == c') &&
      (if r.cow_id == c && r.is_active then { r with is_active := false } else r).is_active)
      = (r.cow_id == c' && r.is_active) := by
  by_cases hb : (r.cow_id == c && r.is_active) = true
  · rw [if_pos hb]
    obtain ⟨h1, h2⟩ := (Bool.and_eq_true _ _).mp hb
    have h1' : r.cow_id = c := beq_iff_eq.mp h1
    have hcc' : ((c : Option ℕ) == c') = false :=
      beq_eq_false_iff_ne.mpr (fun he => h he.symm)
    simp [h1', h2, hcc']
  · rw [if_neg hb]

theorem activeCount_save_self (db : MLDb) (c : Option ℕ) (v : String)
    (m : IsolationForest) (me : Metrics) (sd ed : ℚ) :
    activeCount (save_new_model db c v m me sd ed) c = 1 := by
  unfold activeCount save_new_model
  rw [List.countP_append, List.countP_map]
  have h0 : List.countP ((fun r => r.cow_id == c && r.is_active) ∘
      (fun r => if r.cow_id == c && r.is_active then { r with is_active := false } else r))
      db.models = 0 :=
    List.countP_eq_zero.mpr (fun r _ => by
      intro hcon
      simp only [Function.comp_apply] at hcon
      rw [deact_pred_self r c] at hcon
      exact Bool.false_ne_true hcon)
  rw [h0]
  simp

theorem activeCount_save_other (db : MLDb) (c c' : Option ℕ) (h : c' ≠ c) (v : String)
    (m : IsolationForest) (me : Metrics) (sd ed : ℚ) :
    activeCount (save_new_model db c v m me sd ed) c' = activeCount db c' := by
  unfold activeCount save_new_model
  rw [List.countP_append, List.countP_map]
  have hmap : List.countP ((fun r => r.cow_id == c' && r.is_active) ∘
      (fun r => if r.cow_id == c && r.is_active then { r with is_active := false } else r))
      db.models = List.countP (fun r => r.cow_id == c' && r.is_active) db.models :=
    List.countP_congr (fun r _ => by
      simp only [Function.comp_apply]
      rw [deact_pred_other r c c' h])
  rw [hmap]
  have hrow : ((c : Option ℕ) == c') = false :=
    beq_eq_false_iff_ne.mpr (fun he => h he.symm)
  simp [hrow]

/-- C6: model activation keeps each cow bucket (including the NULL one)
at a single active row: after `save_new_model` for bucket `c` exactly one
row of bucket `c` is active, other buckets are untouched, the at-most-one
invariant is preserved for every bucket, and a second activation for the
same bucket still leaves exactly one active row. -/
theorem c6_single_active_model (db : MLDb) (c : Option ℕ) (v1 v2 : String)
    (m1 m2 : IsolationForest) (me1 me2 : Metrics) (s1 e1 s2 e2 : ℚ) :
    activeCount (save_new_model db c v1 m1 me1 s1 e1) c = 1 ∧
    (∀ c', c' ≠ c →
      activeCount (save_new_model db c v1 m1 me1 s1 e1) c' = activeCount db c') ∧
    (∀ c', activeCount db c' ≤ 1 →
      activeCount (save_new_model db c v1 m1 me1 s1 e1) c' ≤ 1) ∧
    activeCount (save_new_model (save_new_model db c v1 m1 me1 s1 e1) c v2 m2 me2 s2 e2)
      c = 1 := by
  refine ⟨activeCount_save_self db c v1 m1 me1 s1 e1,
    fun c' h => activeCount_save_other db c c' h v1 m1 me1 s1 e1, ?_,
    activeCount_save_self _ c v2 m2 me2 s2 e2⟩
  intro c' hle
  by_cases hc : c' = c
  · subst hc
    rw [activeCount_save_self]
  · rw [activeCount_save_other db c c' hc]
    exact hle

theorem c6_witness :
    activeCount (save_new_model emptyDb (some 1) "a" fEmpty ⟨8, 1, 0⟩ 0 0) (some 1) = 1 ∧
    activeCount (save_new_model emptyDb (some 1) "a" fEmpty ⟨8, 1, 0⟩ 0 0) (some 2) =
      activeCount emptyDb (some 2) ∧
    activeCount (save_new_model emptyDb (some 1) "a" fEmpty ⟨8, 1, 0⟩ 0 0) (some 2) ≤ 1 ∧
    activeCount (save_new_model (save_new_model emptyDb (some 1) "a" fEmpty ⟨8, 1, 0⟩ 0 0)
      (some 1) "b" fEmpty ⟨8, 1, 0⟩ 0 0) (some 1) = 1 := by
  obtain ⟨h1, h2, h3, h4⟩ :=
    c6_single_active_model emptyDb (some 1) "a" "b" fEmpty fEmpty
      ⟨8, 1, 0⟩ ⟨8, 1, 0⟩ 0 0 0 0
  exact ⟨h1, h2 (some 2) (by decide), h3 (some 2) (by decide), h4⟩

theorem fitTrees_aux (rng : ℕ → ℕ × ℚ) (md : ℕ) :
    ∀ (samples : List (List (List ℚ))) (acc : List Node × ℕ),
      ((samples.foldl (fun acc Xs =>
          let tr := build_tree rng Xs acc.2 md
          (acc.1 ++ [tr.1], tr.2)) acc).1).length = acc.1.length + samples.length := by
  intro samples
  induction samples with
  | nil => intro acc; simp
  | cons X t ih =>
    intro acc
    rw [List.foldl_cons, ih]
    simp
    omega

theorem fitTrees_length (rng : ℕ → ℕ × ℚ) (samples : List (List (List ℚ))) (md : ℕ) :
    (fitTrees rng samples md).length = samples.length := by
  unfold fitTrees
  rw [fitTrees_aux]
  simp

theorem fit_trees_count (f0 : IsolationForest) (X : List (List ℚ))
    (sub : ℕ → List ℕ) (rng : ℕ → ℕ × ℚ) :
    (f0.fit X sub rng).trees.length = f0.n_estimators := by
  unfold IsolationForest.fit
  simp [fitTrees_length]

/-- C7: for a trained forest, the score of a point is the negation of the
mean leaf depth of that point across all trees (path length with no
leaf-size correction); the threshold fixed by `fit` is the
`contamination`-th percentile (`np.percentile` at `contamination·100`) of
the training-set scores; and a point is predicted anomalous (label −1)
exactly when its score is strictly greater than the threshold. -/
theorem c7_isolation_forest_contract (f0 : IsolationForest) (X : List (List ℚ))
    (sub : ℕ → List ℕ) (rng : ℕ → ℕ × ℚ) (x : List ℚ) :
    (f0.fit X sub rng).score_samples [x] =
      [-(((f0.fit X sub rng).trees.map
            (fun t => ((get_path_length x t 0 : ℕ) : ℚ))).sum /
          (((f0.fit X sub rng).trees.length : ℕ) : ℚ))] ∧
    (f0.fit X sub rng).threshold_ =
      npPercentile ((f0.fit X sub rng).score_samples X) (f0.contamination * 100) ∧
    ((f0.fit X sub rng).predict [x] = [(-1 : ℤ)] ↔
      -((f0.fit X sub rng).avg_path_length x) > (f0.fit X sub rng).threshold_) := by
  refine ⟨?_, ?_, ?_⟩
  · rw [fit_trees_count]
    rfl
  · rfl
  · by_cases hgt :
      -((f0.fit X sub rng).avg_path_length x) > (f0.fit X sub rng).threshold_
    · simp [IsolationForest.predict, IsolationForest.score_samples, hgt]
    · simp [IsolationForest.predict, IsolationForest.score_samples, hgt]

end Capstone
